import Mathlib

/-!
Verification of the conversational calorie-estimator application (`app.py`).

The development shallowly embeds the core logic of the script:
* the JSON values produced by `json.loads` and the subset of its grammar the
  script relies on (numeric literals are modelled by their integer truncation,
  exponents are outside the model);
* Python's `int(...)` coercion as used on breakdown fields;
* the Result Extractor (lines 178-235 of `app.py`): first-`{` / last-`}`
  slicing, JSON parsing, per-item field coercion with defaulting to 0, row
  construction and totals accumulation;
* the tool-call loop (lines 137-156): dispatch of model-requested tool calls
  through the registry `available_tools`, with the silent break on an
  unregistered tool name;
* the search adapter `perform_web_search` (lines 28-38), with the external
  Tavily call abstracted as an oracle;
* the Streamlit session state and the stage transitions, including the
  unconditional reset on "Start Over" (lines 237-240).
-/

namespace CalApp

/-- The opening curly bracket character, written via its code point. -/
def lbrace : Char := Char.ofNat 123

/-- The closing curly bracket character, written via its code point. -/
def rbrace : Char := Char.ofNat 125

/-- JSON values as produced by `json.loads`.  Numbers are modelled by their
truncation toward zero to an integer, which is exactly the value Python's
`int(...)` extracts from them and the value rendered by the extractor. -/
inductive JVal where
  | jnull : JVal
  | jbool : Bool → JVal
  | jnum : Int → JVal
  | jstr : String → JVal
  | jarr : List JVal → JVal
  | jobj : List (String × JVal) → JVal
deriving Repr, Inhabited

/-- JSON whitespace accepted between tokens by `json.loads`. -/
def isJsonWs (c : Char) : Bool :=
  c = ' ' || c = '\t' || c = '\n' || c = '\r'

/-- Drop leading JSON whitespace. -/
def skipWs (l : List Char) : List Char := l.dropWhile isJsonWs

/-- Decimal digit value, via the code point (48 is `0`). -/
def digitVal (c : Char) : Option Nat :=
  let n := c.toNat
  if 48 ≤ n && n ≤ 57 then some (n - 48) else none

/-- Hexadecimal digit value, via the code point (48 is `0`, 97 is `a`, 65 is
`A`). -/
def hexDigitVal (c : Char) : Option Nat :=
  let n := c.toNat
  if 48 ≤ n && n ≤ 57 then some (n - 48)
  else if 97 ≤ n && n ≤ 102 then some (n - 87)
  else if 65 ≤ n && n ≤ 70 then some (n - 55)
  else none

/-- Parse exactly four hexadecimal digits (the `XXXX` of a `\uXXXX` escape). -/
def parseHex4 : List Char → Option (Nat × List Char)
  | a :: b :: c :: d :: rest =>
    match hexDigitVal a, hexDigitVal b, hexDigitVal c, hexDigitVal d with
    | some x, some y, some z, some w => some (((x * 16 + y) * 16 + z) * 16 + w, rest)
    | _, _, _, _ => none
  | _ => none

/-- Body of a JSON string literal, after the opening quote: returns the decoded
characters and the remainder after the closing quote.  Escapes `\" \\ \/ \b
\f \n \r \t \uXXXX` are decoded; a `\uXXXX` high surrogate followed by a low
surrogate is combined into one code point.  Raw control characters are
rejected, as `json.loads` does in strict mode. -/
def parseJStringAux : Nat → List Char → Option (List Char × List Char)
  | 0, _ => none
  | _, [] => none
  | _ + 1, '"' :: rest => some ([], rest)
  | fuel + 1, '\\' :: e :: rest =>
    let simpleEsc : Char → Option Char := fun c =>
      if c = '"' then some '"'
      else if c = '\\' then some '\\'
      else if c = '/' then some '/'
      else if c = 'b' then some (Char.ofNat 8)
      else if c = 'f' then some (Char.ofNat 12)
      else if c = 'n' then some '\n'
      else if c = 'r' then some '\r'
      else if c = 't' then some '\t'
      else none
    match simpleEsc e with
    | some c =>
      match parseJStringAux fuel rest with
      | some (s, rem) => some (c :: s, rem)
      | none => none
    | none =>
      if e = 'u' then
        match parseHex4 rest with
        | none => none
        | some (n, rest2) =>
          if 0xd800 ≤ n && n < 0xdc00 then
            match rest2 with
            | '\\' :: 'u' :: rest3 =>
              match parseHex4 rest3 with
              | some (m, rest4) =>
                if 0xdc00 ≤ m && n < 0xe000 then
                  let cp := 0x10000 + (n - 0xd800) * 0x400 + (m - 0xdc00)
                  match parseJStringAux fuel rest4 with
                  | some (s, rem) => some (Char.ofNat cp :: s, rem)
                  | none => none
                else none
              | none => none
            | _ => none
          else
            match parseJStringAux fuel rest2 with
            | some (s, rem) => some (Char.ofNat n :: s, rem)
            | none => none
      else none
  | fuel + 1, c :: rest =>
    if c.toNat < 0x20 then none
    else
      match parseJStringAux fuel rest with
      | some (s, rem) => some (c :: s, rem)
      | none => none

/-- Digits of a JSON integer part: `0`, or a nonzero digit followed by digits.
Returns the accumulated value and the remainder. -/
def parseDigits : List Char → Nat → Nat × List Char
  | c :: rest, acc =>
    match digitVal c with
    | some v => parseDigits rest (acc * 10 + v)
    | none => (acc, c :: rest)
  | [], acc => (acc, [])

/-- A JSON number without sign: integer part, optional fraction (which the
model truncates away, matching the value `int(...)` later extracts).
Exponents are outside the modelled grammar. -/
def parseNumNoSign : List Char → Option (Nat × List Char)
  | '0' :: rest => some (0, rest)
  | c :: rest =>
    match digitVal c with
    | some v => if v = 0 then none else some (parseDigits rest v)
    | none => none
  | [] => none

/-- Consume an optional fraction `.digits` after the integer part. -/
def parseFrac : List Char → Option (List Char)
  | '.' :: c :: rest =>
    match digitVal c with
    | some _ => some (parseDigits rest 0).2
    | none => none
  | '.' :: [] => none
  | l => some l

/-- Insert a key/value pair into an association list with Python `dict`
semantics: an existing key keeps its position and gets the new value. -/
def insertField : List (String × JVal) → String → JVal → List (String × JVal)
  | [], k, v => [(k, v)]
  | (k0, v0) :: rest, k, v =>
    if k0 = k then (k0, v) :: rest else (k0, v0) :: insertField rest k v

mutual

/-- Parse one JSON value (fuel-bounded recursion; `jsonLoads` supplies
sufficient fuel for any input). -/
def parseVal : Nat → List Char → Option (JVal × List Char)
  | 0, _ => none
  | fuel + 1, input =>
    match skipWs input with
    | [] => none
    | 'n' :: 'u' :: 'l' :: 'l' :: rest => some (.jnull, rest)
    | 't' :: 'r' :: 'u' :: 'e' :: rest => some (.jbool true, rest)
    | 'f' :: 'a' :: 'l' :: 's' :: 'e' :: rest => some (.jbool false, rest)
    | '"' :: rest =>
      match parseJStringAux (rest.length + 1) rest with
      | some (s, rem) => some (.jstr (String.mk s), rem)
      | none => none
    | '-' :: rest =>
      match parseNumNoSign rest with
      | some (n, rem) =>
        match parseFrac rem with
        | some rem2 => some (.jnum (-(Int.ofNat n)), rem2)
        | none => none
      | none => none
    | '[' :: rest =>
      match skipWs rest with
      | ']' :: rem => some (.jarr [], rem)
      | l => parseArrItems fuel l
    | c :: rest =>
      if c = lbrace then
        match skipWs rest with
        | d :: rem =>
          if d = rbrace then some (.jobj [], rem)
          else parseObjItems fuel [] (d :: rem)
        | [] => none
      else
        match parseNumNoSign (c :: rest) with
        | some (n, rem) =>
          match parseFrac rem with
          | some rem2 => some (.jnum (Int.ofNat n), rem2)
          | none => none
        | none => none

/-- Parse the items of a JSON array after `[`, positioned at the first item. -/
def parseArrItems : Nat → List Char → Option (JVal × List Char)
  | 0, _ => none
  | fuel + 1, input =>
    match parseVal fuel input with
    | none => none
    | some (v, rem) =>
      match skipWs rem with
      | ',' :: rest =>
        match parseArrItems fuel rest with
        | some (.jarr vs, rem2) => some (.jarr (v :: vs), rem2)
        | _ => none
      | ']' :: rest => some (.jarr [v], rest)
      | _ => none

/-- Parse the members of a JSON object after its opening bracket, positioned at
the first key.  `acc` holds the members parsed so far; a repeated key replaces
the earlier value in place, matching Python `dict` construction. -/
def parseObjItems : Nat → List (String × JVal) → List Char → Option (JVal × List Char)
  | 0, _, _ => none
  | fuel + 1, acc, input =>
    match skipWs input with
    | '"' :: rest =>
      match parseJStringAux (rest.length + 1) rest with
      | none => none
      | some (k, rem) =>
        match skipWs rem with
        | ':' :: rest2 =>
          match parseVal fuel rest2 with
          | none => none
          | some (v, rem2) =>
            let acc2 := insertField acc (String.mk k) v
            match skipWs rem2 with
            | ',' :: rest3 => parseObjItems fuel acc2 rest3
            | d :: rest3 =>
              if d = rbrace then some (.jobj acc2, rest3) else none
            | [] => none
        | _ => none
    | _ => none

end

/-- Embedding of `json.loads`: parse one JSON value and require that only
whitespace follows it. -/
def jsonLoads (s : String) : Option JVal :=
  match parseVal (s.toList.length + 1) s.toList with
  | some (v, rem) => if (skipWs rem).isEmpty then some v else none
  | none => none

/-! ### Python `int(...)` coercion -/

/-- Whitespace stripped by Python's `int(str)` conversion (ASCII subset). -/
def isStripWs (c : Char) : Bool :=
  c = ' ' || c = '\t' || c = '\n' || c = '\r' || c = Char.ofNat 11 || c = Char.ofNat 12

/-- Digits possibly separated by single underscores, continuing an integer
literal already begun with value `acc`; a leading, trailing, or doubled
underscore is rejected, as Python's `int` does. -/
def digitsCore : List Char → Nat → Option Nat
  | [], acc => some acc
  | ['_'], _ => none
  | '_' :: d :: rest, acc =>
    match digitVal d with
    | some v => digitsCore rest (acc * 10 + v)
    | none => none
  | c :: rest, acc =>
    match digitVal c with
    | some v => digitsCore rest (acc * 10 + v)
    | none => none

/-- The digit part of a Python integer literal: nonempty, starts with a digit,
single underscores allowed between digits. -/
def pyIntDigits : List Char → Option Nat
  | [] => none
  | c :: rest =>
    match digitVal c with
    | some v => digitsCore rest v
    | none => none

/-- Embedding of `int(s)` for a string `s`: strip surrounding whitespace,
accept an optional sign followed by digits; anything else raises `ValueError`,
modelled as `none`. -/
def pyIntOfString (s : String) : Option Int :=
  let l := ((s.toList.dropWhile isStripWs).reverse.dropWhile isStripWs).reverse
  match l with
  | '+' :: rest => (pyIntDigits rest).map Int.ofNat
  | '-' :: rest => (pyIntDigits rest).map (fun n => -(Int.ofNat n))
  | _ => (pyIntDigits l).map Int.ofNat

/-- Embedding of `int(x)` on a value taken from parsed JSON: numbers keep
their (truncated) value, booleans map to 1/0, strings go through the literal
parser; `None`, lists and objects raise `TypeError`, modelled as `none`. -/
def pyInt : JVal → Option Int
  | .jnum n => some n
  | .jbool b => some (if b then 1 else 0)
  | .jstr s => pyIntOfString s
  | .jnull => none
  | .jarr _ => none
  | .jobj _ => none

/-! ### The Result Extractor (`app.py` lines 178-235) -/

/-- Index of the first occurrence of `c`, as Python `str.find` (with `none`
for -1). -/
def pyFindAux (c : Char) : List Char → Option Nat
  | [] => none
  | a :: as => if a = c then some 0 else (pyFindAux c as).map (· + 1)

/-- Python `raw.find(c)`. -/
def pyFind (l : List Char) (c : Char) : Option Nat := pyFindAux c l

/-- Python `raw.rfind(c)`: index of the last occurrence. -/
def pyRfind (l : List Char) (c : Char) : Option Nat :=
  (pyFindAux c l.reverse).map (fun i => l.length - 1 - i)

/-- The slicing step of the extractor: `json_start = raw.find('{')`,
`json_end = raw.rfind('}') + 1`; if either bracket is absent the `ValueError`
branch is taken (`none`); otherwise the result is `raw[json_start:json_end]`. -/
def firstBraceSlice (raw : String) : Option String :=
  match pyFind raw.toList lbrace, pyRfind raw.toList rbrace with
  | some i, some j => some (String.mk ((raw.toList.drop i).take (j + 1 - i)))
  | _, _ => none

/-- Python truthiness of a parsed JSON value, as used by
`if not breakdown_list`. -/
def pyTruthy : JVal → Bool
  | .jnull => false
  | .jbool b => b
  | .jnum n => n ≠ 0
  | .jstr s => !s.isEmpty
  | .jarr xs => !xs.isEmpty
  | .jobj fs => !fs.isEmpty

/-- Python iteration over the value bound to `breakdown_list`: lists yield
their elements, strings their characters, dicts their keys; other values
raise `TypeError` (`none`), which nothing in `main` catches. -/
def pyIter : JVal → Option (List JVal)
  | .jarr xs => some xs
  | .jstr s => some (s.toList.map (fun c => JVal.jstr (String.mk [c])))
  | .jobj fs => some (fs.map (fun p => JVal.jstr p.1))
  | _ => none

/-- `dict.get` on the fields of a parsed JSON object (keys are unique by
construction of `insertField`). -/
def objGet (fs : List (String × JVal)) (k : String) : Option JVal :=
  match fs with
  | [] => none
  | (k0, v) :: rest => if k0 = k then some v else objGet rest k

/-- One macro field of a breakdown item: `int(item.get(key))`, with
`ValueError`/`TypeError` caught and defaulted to 0 (`app.py` lines 195-214). -/
def coerceField (fs : List (String × JVal)) (key : String) : Int :=
  match objGet fs key with
  | none => 0
  | some v =>
    match pyInt v with
    | none => 0
    | some n => n

/-- The four accumulated totals. -/
structure Totals where
  calories : Int
  protein : Int
  carbs : Int
  fat : Int
deriving Repr, DecidableEq

/-- One row of `display_data` (`app.py` lines 220-222): the raw `item` value
(defaulted to `"N/A"`) and the four formatted macro strings. -/
structure DisplayRow where
  item : JVal
  calories : String
  protein : String
  carbs : String
  fat : String
deriving Repr

/-- Build the display row of one breakdown item. -/
def itemRow (fs : List (String × JVal)) : DisplayRow :=
  { item := (objGet fs "item").getD (.jstr "N/A")
    calories := toString (coerceField fs "calories") ++ " kcal"
    protein := toString (coerceField fs "protein_grams") ++ "g"
    carbs := toString (coerceField fs "carbs_grams") ++ "g"
    fat := toString (coerceField fs "fat_grams") ++ "g" }

/-- The totals contributed by one breakdown item. -/
def itemTotals (fs : List (String × JVal)) : Totals :=
  { calories := coerceField fs "calories"
    protein := coerceField fs "protein_grams"
    carbs := coerceField fs "carbs_grams"
    fat := coerceField fs "fat_grams" }

/-- Pointwise sum of totals. -/
def addTotals (a b : Totals) : Totals :=
  ⟨a.calories + b.calories, a.protein + b.protein, a.carbs + b.carbs, a.fat + b.fat⟩

/-- The `for item in breakdown_list` loop: every item must be a dict
(`item.get` on anything else raises `AttributeError`, uncaught → `none`);
each dict item contributes one display row and its four field values to the
running totals, regardless of which fields were coerced or defaulted. -/
def processItems : List JVal → Option (List DisplayRow × Totals)
  | [] => some ([], ⟨0, 0, 0, 0⟩)
  | .jobj fs :: rest =>
    match processItems rest with
    | none => none
    | some (rows, t) => some (itemRow fs :: rows, addTotals (itemTotals fs) t)
  | _ :: _ => none

/-- Outcome of the Results-stage rendering: the caught-error branch (showing
the raw text verbatim), an uncaught Python exception, or a rendered table
with totals (plus whether the empty-breakdown warning was displayed). -/
inductive ExtractOutcome where
  | parseError : String → ExtractOutcome
  | crashed : ExtractOutcome
  | ok : List DisplayRow → Totals → Bool → ExtractOutcome
deriving Repr

/-- The Result Extractor (`app.py` lines 180-235): locate the first opening
and last closing curly bracket, slice, `json.loads` the slice, read the
`breakdown` field (default `[]`), warn if it is falsy, and fold the items
into rows and totals.  `ValueError` and `JSONDecodeError` are caught and show
the raw text; `AttributeError`/`TypeError` from non-dict data escape. -/
def resultExtractor (raw : String) : ExtractOutcome :=
  match firstBraceSlice raw with
  | none => .parseError raw
  | some jsonStr =>
    match jsonLoads jsonStr with
    | none => .parseError raw
    | some data =>
      match data with
      | .jobj fields =>
        let breakdown := (objGet fields "breakdown").getD (.jarr [])
        let warned := !pyTruthy breakdown
        match pyIter breakdown with
        | none => .crashed
        | some items =>
          match processItems items with
          | none => .crashed
          | some (rows, totals) => .ok rows totals warned
      | _ => .crashed

/-! ### The search adapter `perform_web_search` (`app.py` lines 28-38) -/

/-- Hexadecimal digit character (lower case), for `\uXXXX` output. -/
def hexDigit (n : Nat) : Char :=
  if n < 10 then Char.ofNat ('0'.toNat + n)
  else Char.ofNat ('a'.toNat + (n - 10))

/-- Four-digit hexadecimal escape `\uXXXX`. -/
def uEscape (n : Nat) : List Char :=
  ['\\', 'u', hexDigit (n / 4096 % 16), hexDigit (n / 256 % 16),
   hexDigit (n / 16 % 16), hexDigit (n % 16)]

/-- `json.dumps` escaping of one character with the default
`ensure_ascii=True`: short escapes for the usual control characters, `\u00XX`
for the remaining control characters, `\uXXXX` (with surrogate pairs beyond
the BMP) for non-ASCII. -/
def jsonEscapeChar (c : Char) : List Char :=
  if c = '"' then ['\\', '"']
  else if c = '\\' then ['\\', '\\']
  else if c = '\n' then ['\\', 'n']
  else if c = '\r' then ['\\', 'r']
  else if c = '\t' then ['\\', 't']
  else if c = Char.ofNat 8 then ['\\', 'b']
  else if c = Char.ofNat 12 then ['\\', 'f']
  else if c.toNat < 0x20 then uEscape c.toNat
  else if c.toNat < 0x7f then [c]
  else if c.toNat < 0x10000 then uEscape c.toNat
  else
    let v := c.toNat - 0x10000
    uEscape (0xd800 + v / 0x400) ++ uEscape (0xdc00 + v % 0x400)

/-- `json.dumps` of a string value. -/
def jsonDumpString (s : String) : String :=
  String.mk ('"' :: (s.toList.flatMap jsonEscapeChar ++ ['"']))

/-- Interpose a separator between encoded elements. -/
def joinSep (sep : String) : List String → String
  | [] => ""
  | [x] => x
  | x :: xs => x ++ sep ++ joinSep sep xs

/-- `json.dumps([{"url": obj["url"], "content": obj["content"]} for obj in
results['results']])` with the default separators: the success payload of the
adapter. -/
def jsonDumpsSearchResults (rs : List (String × String)) : String :=
  "[" ++
    joinSep ", " (rs.map (fun r =>
      String.mk (lbrace :: String.toList
        ("\"url\": " ++ jsonDumpString r.1 ++ ", \"content\": " ++ jsonDumpString r.2)
        ++ [rbrace]))) ++ "]"

/-- Embedding of `perform_web_search` (`app.py` lines 28-38).  The external
Tavily call, together with the extraction of `results['results']` and of the
`url`/`content` fields, is abstracted as the oracle `search`: an `Except.ok`
is a fully well-formed result set, and every underlying failure (network
error, malformed response) is an `Except.error` carrying the exception text,
since the `try` block spans the call and the field extraction.  The `except
Exception` clause turns any such failure into the returned error string. -/
def perform_web_search (search : String → Except String (List (String × String)))
    (query : String) : String :=
  match search query with
  | .ok results => jsonDumpsSearchResults results
  | .error e => "Error performing search: " ++ e

/-! ### The tool-call loop (`app.py` lines 137-156) -/

/-- A model-issued function call: name plus keyword arguments. -/
structure ToolCall where
  name : String
  args : List (String × String)
deriving Repr, DecidableEq

/-- One content fragment of a model turn. -/
inductive MsgPart where
  | text : String → MsgPart
  | functionCall : ToolCall → MsgPart
deriving Repr, DecidableEq

/-- One model turn: the `response.candidates[0].content` of a reply. -/
structure ModelTurn where
  parts : List MsgPart
deriving Repr, DecidableEq

/-- The loop guard `len(parts) > 0 and parts[0].function_call`: the first
fragment, when it is a function call. -/
def firstToolCall (t : ModelTurn) : Option ToolCall :=
  match t.parts with
  | [] => none
  | .functionCall c :: _ => some c
  | .text _ :: _ => none

/-- Messages appended to the conversation history by one loop iteration: the
model's function-call turn and the `FunctionResponse` sent back. -/
inductive Msg where
  | toolCallMsg : ToolCall → Msg
  | toolResultMsg : String → String → Msg
deriving Repr, DecidableEq

/-- The names registered in `available_tools`. -/
def registryNames : List String := ["perform_web_search"]

/-- `function_to_call(**tool_args)` for the registered adapter, whose
signature is `perform_web_search(query)`: the keyword arguments must be
exactly `query`; any other shape raises `TypeError` at the call site,
outside every `try` (`none`). -/
def dispatchTool (adapter : String → String) (c : ToolCall) : Option String :=
  match c.args with
  | [(k, v)] => if k = "query" then some (adapter v) else none
  | _ => none

/-- How a run of the `while` loop ended. -/
inductive LoopOutcome where
  | finished : LoopOutcome
  | silentStop : LoopOutcome
  | crashed : LoopOutcome
deriving Repr, DecidableEq

/-- A completed run: how it ended, how many tool invocations were processed,
and the messages appended to the history by the loop body. -/
structure RunResult where
  outcome : LoopOutcome
  invocations : Nat
  appended : List Msg
deriving Repr, DecidableEq

/-- The `while` loop of `app.py` lines 137-155, with the successive model
turns abstracted as the stream `turns` (turn `i` is the model reply examined
at iteration `i`) and the single registered adapter passed in.  Fuel-bounded:
`none` means the supplied fuel was exhausted before the loop exited. -/
def runToolCallLoop (adapter : String → String) (turns : Nat → ModelTurn) :
    Nat → Nat → Option RunResult
  | 0, _ => none
  | fuel + 1, i =>
    match firstToolCall (turns i) with
    | none => some ⟨.finished, 0, []⟩
    | some c =>
      if c.name ∈ registryNames then
        match dispatchTool adapter c with
        | none => some ⟨.crashed, 0, []⟩
        | some result =>
          match runToolCallLoop adapter turns fuel (i + 1) with
          | none => none
          | some r =>
            some ⟨r.outcome, r.invocations + 1,
              .toolCallMsg c :: .toolResultMsg c.name result :: r.appended⟩
      else some ⟨.silentStop, 0, []⟩

/-- The loop terminates when some amount of fuel suffices for it to exit. -/
def LoopTerminates (adapter : String → String) (turns : Nat → ModelTurn) : Prop :=
  ∃ fuel r, runToolCallLoop adapter turns fuel 0 = some r

/-- Turn `k` stops the loop when it is reached: no leading tool call, an
unregistered tool name, or keyword arguments that crash the dispatch. -/
def StopTurn (adapter : String → String) (turns : Nat → ModelTurn) (k : Nat) : Prop :=
  firstToolCall (turns k) = none ∨
    ∃ c, firstToolCall (turns k) = some c ∧
      (c.name ∉ registryNames ∨ dispatchTool adapter c = none)

/-! ### Session state and stage transitions (`app.py` lines 77-240) -/

/-- One chat history entry as stored in `st.session_state.messages`. -/
structure ChatMsg where
  role : String
  text : String
deriving Repr, DecidableEq

/-- `st.session_state`: each field is `none` when the key is absent.  The
image slot is doubly optional because `main` initialises the key to `None`. -/
structure SessionState where
  analysis_stage : Option String
  uploaded_image_data : Option (Option (List Nat))
  messages : Option (List ChatMsg)
  final_analysis : Option String
deriving Repr, DecidableEq

/-- The state of a brand-new session, before `main` runs: no keys at all. -/
def emptySessionState : SessionState := ⟨none, none, none, none⟩

/-- The three `if key not in st.session_state` initialisations at the top of
`main` (lines 77-82). -/
def initSession (s : SessionState) : SessionState :=
  { analysis_stage := some (s.analysis_stage.getD "upload")
    uploaded_image_data := some (s.uploaded_image_data.getD none)
    messages := some (s.messages.getD [])
    final_analysis := s.final_analysis }

/-- Upload → Analyzing (lines 87-90): store the raw image bytes, advance. -/
def uploadStep (s : SessionState) (bytes : List Nat) : SessionState :=
  { s with uploaded_image_data := some (some bytes), analysis_stage := some "analyzing" }

/-- Analyzing → Conversation (lines 113-118): seed the chat history. -/
def analyzeStep (s : SessionState) (history : List ChatMsg) : SessionState :=
  { s with messages := some history, analysis_stage := some "conversation" }

/-- Conversation → Conversation (line 156): refresh the stored history. -/
def convStep (s : SessionState) (history : List ChatMsg) : SessionState :=
  { s with messages := some history }

/-- Conversation → Results (lines 173-175): store the raw final response. -/
def finalizeStep (s : SessionState) (finalText : String) : SessionState :=
  { s with final_analysis := some finalText, analysis_stage := some "results" }

/-- The "Start Over" button (lines 237-240): `del st.session_state[key]` for
every key, unconditionally. -/
def resetSession (_ : SessionState) : SessionState := emptySessionState

/-- The parsed JSON payload the extractor works on: `json.loads` of the
bracket slice (`data` in the source). -/
def extractedData (raw : String) : Option JVal :=
  (firstBraceSlice raw).bind jsonLoads

/-- The four totals produced by a Results render, when the render succeeds. -/
def extractTotals (raw : String) : Option Totals :=
  match resultExtractor raw with
  | .ok _ t _ => some t
  | _ => none

/-! ### Helper lemmas -/

theorem pyFindAux_of_not_mem (c : Char) (l : List Char) (h : c ∉ l) :
    pyFindAux c l = none := by
  induction l with
  | nil => rfl
  | cons a as ih =>
    have ha : a ≠ c := fun e => h (e ▸ List.mem_cons_self a as)
    have := ih (fun m => h (List.mem_cons_of_mem a m))
    simp [pyFindAux, ha, this]

theorem pyFindAux_append_of_not_mem (c : Char) (l₁ l₂ : List Char) (h : c ∉ l₁) :
    pyFindAux c (l₁ ++ l₂) = (pyFindAux c l₂).map (· + l₁.length) := by
  induction l₁ with
  | nil => simp
  | cons a as ih =>
    have ha : a ≠ c := fun e => h (e ▸ List.mem_cons_self a as)
    have has : c ∉ as := fun m => h (List.mem_cons_of_mem a m)
    rw [List.cons_append]
    show (if a = c then some 0 else (pyFindAux c (as ++ l₂)).map (· + 1)) = _
    rw [if_neg ha, ih has, Option.map_map]
    cases pyFindAux c l₂ with
    | none => rfl
    | some k => rfl

theorem pyFindAux_cons_self (c : Char) (rest : List Char) :
    pyFindAux c (c :: rest) = some 0 := by
  simp [pyFindAux]

theorem runToolCallLoop_succ (adapter : String → String) (turns : Nat → ModelTurn)
    (fuel i : Nat) :
    runToolCallLoop adapter turns (fuel + 1) i =
      match firstToolCall (turns i) with
      | none => some ⟨.finished, 0, []⟩
      | some c =>
        if c.name ∈ registryNames then
          match dispatchTool adapter c with
          | none => some ⟨.crashed, 0, []⟩
          | some result =>
            match runToolCallLoop adapter turns fuel (i + 1) with
            | none => none
            | some r =>
              some ⟨r.outcome, r.invocations + 1,
                .toolCallMsg c :: .toolResultMsg c.name result :: r.appended⟩
        else some ⟨.silentStop, 0, []⟩ := rfl

theorem loop_appended_pairs (adapter : String → String) (turns : Nat → ModelTurn) :
    ∀ fuel i r, runToolCallLoop adapter turns fuel i = some r →
      r.appended.length = 2 * r.invocations := by
  intro fuel
  induction fuel with
  | zero => intro i r h; simp [runToolCallLoop] at h
  | succ fuel ih =>
    intro i r h
    rw [runToolCallLoop_succ] at h
    cases hc : firstToolCall (turns i) with
    | none =>
      rw [hc] at h
      cases h
      rfl
    | some c =>
      rw [hc] at h
      by_cases hm : c.name ∈ registryNames
      · simp only [if_pos hm] at h
        cases hd : dispatchTool adapter c with
        | none => simp only [hd] at h; cases h; rfl
        | some s =>
          simp only [hd] at h
          cases hrec : runToolCallLoop adapter turns fuel (i + 1) with
          | none => simp only [hrec] at h; cases h
          | some r0 =>
            simp only [hrec] at h
            cases h
            have := ih (i + 1) r0 hrec
            simp only [List.length_cons, this]
            omega
      · simp only [if_neg hm] at h
        cases h
        rfl

theorem loop_stop_of_run (adapter : String → String) (turns : Nat → ModelTurn) :
    ∀ fuel i r, runToolCallLoop adapter turns fuel i = some r →
      ∃ k, StopTurn adapter turns k := by
  intro fuel
  induction fuel with
  | zero => intro i r h; simp [runToolCallLoop] at h
  | succ fuel ih =>
    intro i r h
    rw [runToolCallLoop_succ] at h
    cases hc : firstToolCall (turns i) with
    | none => exact ⟨i, Or.inl hc⟩
    | some c =>
      rw [hc] at h
      by_cases hm : c.name ∈ registryNames
      · simp only [if_pos hm] at h
        cases hd : dispatchTool adapter c with
        | none => exact ⟨i, Or.inr ⟨c, hc, Or.inr hd⟩⟩
        | some s =>
          simp only [hd] at h
          cases hrec : runToolCallLoop adapter turns fuel (i + 1) with
          | none => simp only [hrec] at h; cases h
          | some r0 => exact ih (i + 1) r0 hrec
      · exact ⟨i, Or.inr ⟨c, hc, Or.inl hm⟩⟩

theorem loop_run_of_stop (adapter : String → String) (turns : Nat → ModelTurn) :
    ∀ d i, StopTurn adapter turns (i + d) →
      ∃ r, runToolCallLoop adapter turns (d + 1) i = some r := by
  intro d
  induction d with
  | zero =>
    intro i h
    rw [Nat.add_zero] at h
    rcases h with h | ⟨c, hc, hcase⟩
    · exact ⟨⟨.finished, 0, []⟩, by rw [runToolCallLoop_succ, h]⟩
    · rcases hcase with hm | hd
      · exact ⟨⟨.silentStop, 0, []⟩, by rw [runToolCallLoop_succ, hc]; simp [if_neg hm]⟩
      · by_cases hm : c.name ∈ registryNames
        · exact ⟨⟨.crashed, 0, []⟩, by rw [runToolCallLoop_succ, hc]; simp [if_pos hm, hd]⟩
        · exact ⟨⟨.silentStop, 0, []⟩, by rw [runToolCallLoop_succ, hc]; simp [if_neg hm]⟩
  | succ d ih =>
    intro i h
    cases hc : firstToolCall (turns i) with
    | none => exact ⟨⟨.finished, 0, []⟩, by rw [runToolCallLoop_succ, hc]⟩
    | some c =>
      by_cases hm : c.name ∈ registryNames
      · cases hd : dispatchTool adapter c with
        | none =>
          exact ⟨⟨.crashed, 0, []⟩, by rw [runToolCallLoop_succ, hc]; simp [if_pos hm, hd]⟩
        | some s =>
          have h' : StopTurn adapter turns ((i + 1) + d) := by
            rwa [show (i + 1) + d = i + (d + 1) by omega]
          rcases ih (i + 1) h' with ⟨r0, hr0⟩
          refine ⟨⟨r0.outcome, r0.invocations + 1,
            .toolCallMsg c :: .toolResultMsg c.name s :: r0.appended⟩, ?_⟩
          rw [runToolCallLoop_succ, hc]
          simp only [if_pos hm, hd, hr0]
      · exact ⟨⟨.silentStop, 0, []⟩, by rw [runToolCallLoop_succ, hc]; simp [if_neg hm]⟩

theorem toList_mk (l : List Char) : (String.mk l).toList = l := rfl

/-! ### Claims -/

/-- Claim C1 (amended): the Tool-Call Loop terminates iff the model turn
stream eventually produces a stopping turn — one whose first fragment is not
a ToolCall, or one whose ToolCall names an unregistered tool or crashes the
keyword-argument binding — and every terminating run appends exactly one
tool-call/tool-result message pair per tool invocation processed. -/
theorem toolCallLoop_terminates_iff_and_pairs (adapter : String → String)
    (turns : Nat → ModelTurn) :
    (LoopTerminates adapter turns ↔ ∃ k, StopTurn adapter turns k) ∧
    (∀ fuel i r, runToolCallLoop adapter turns fuel i = some r →
      r.appended.length = 2 * r.invocations) := by
  refine ⟨⟨?_, ?_⟩, loop_appended_pairs adapter turns⟩
  · rintro ⟨fuel, r, h⟩
    exact loop_stop_of_run adapter turns fuel 0 r h
  · rintro ⟨k, hk⟩
    rcases loop_run_of_stop adapter turns k 0 (by rwa [Nat.zero_add]) with ⟨r, hr⟩
    exact ⟨k + 1, r, hr⟩

/-- Witness for C1: a stream whose first turn is plain text makes the loop
terminate, by the backward direction of the amended equivalence. -/
theorem toolCallLoop_terminates_iff_and_pairs_witness :
    LoopTerminates id (fun _ => ⟨[MsgPart.text "done"]⟩) :=
  (toolCallLoop_terminates_iff_and_pairs id (fun _ => ⟨[MsgPart.text "done"]⟩)).1.mpr
    ⟨0, Or.inl rfl⟩

/-- Counterexample for C1 as stated: when every model turn requests the
unregistered tool "bogus", the loop terminates (silent break) although no
turn is ever free of a ToolCall, so termination is not equivalent to the
model eventually returning a turn without a ToolCall. -/
theorem toolCallLoop_claim_counterexample :
    LoopTerminates id (fun _ => ⟨[MsgPart.functionCall ⟨"bogus", []⟩]⟩) ∧
    ∀ k, firstToolCall ((fun _ : Nat => ModelTurn.mk [MsgPart.functionCall ⟨"bogus", []⟩]) k)
      ≠ none := by
  refine ⟨⟨1, ⟨.silentStop, 0, []⟩, by decide⟩, fun k h => Option.noConfusion h⟩

/-- Claim C2 (amended): when the surrounding text puts no opening curly
bracket before the enclosed JSON object and no closing curly bracket after
it, the extractor's bracket slice is exactly the enclosed object text, and
the data it parses is exactly `json.loads` of that text. -/
theorem extractor_recovers_enclosed (pre mid post : List Char)
    (hpre : lbrace ∉ pre) (hpost : rbrace ∉ post) :
    firstBraceSlice (String.mk (pre ++ (lbrace :: (mid ++ [rbrace])) ++ post)) =
      some (String.mk (lbrace :: (mid ++ [rbrace]))) ∧
    extractedData (String.mk (pre ++ (lbrace :: (mid ++ [rbrace])) ++ post)) =
      jsonLoads (String.mk (lbrace :: (mid ++ [rbrace]))) := by
  have hfind : pyFind (pre ++ (lbrace :: (mid ++ [rbrace])) ++ post) lbrace
      = some pre.length := by
    rw [List.append_assoc]
    unfold pyFind
    rw [pyFindAux_append_of_not_mem lbrace pre _ hpre, List.cons_append,
      pyFindAux_cons_self]
    simp
  have hrev : (pre ++ (lbrace :: (mid ++ [rbrace])) ++ post).reverse
      = post.reverse ++ (rbrace :: (mid.reverse ++ (lbrace :: pre.reverse))) := by
    simp
  have hrfind : pyRfind (pre ++ (lbrace :: (mid ++ [rbrace])) ++ post) rbrace
      = some (pre.length + mid.length + 1) := by
    unfold pyRfind
    rw [hrev, pyFindAux_append_of_not_mem rbrace post.reverse _ (by simpa using hpost),
      pyFindAux_cons_self]
    simp
    omega
  have hslice : firstBraceSlice (String.mk (pre ++ (lbrace :: (mid ++ [rbrace])) ++ post))
      = some (String.mk (lbrace :: (mid ++ [rbrace]))) := by
    unfold firstBraceSlice
    rw [toList_mk, hfind, hrfind]
    have harith : pre.length + mid.length + 1 + 1 - pre.length
        = (lbrace :: (mid ++ [rbrace])).length := by
      simp
      omega
    show some (String.mk (((pre ++ (lbrace :: (mid ++ [rbrace])) ++ post).drop
        pre.length).take (pre.length + mid.length + 1 + 1 - pre.length))) =
      some (String.mk (lbrace :: (mid ++ [rbrace])))
    rw [harith, List.append_assoc, List.drop_left, List.take_left]
  refine ⟨hslice, ?_⟩
  unfold extractedData
  rw [hslice]
  rfl

/-- Witness for C2 (amended): slicing `p{}q` recovers `{}`. -/
theorem extractor_recovers_enclosed_witness :
    firstBraceSlice (String.mk (['p'] ++ (lbrace :: ([] ++ [rbrace])) ++ ['q'])) =
      some (String.mk (lbrace :: ([] ++ [rbrace]))) :=
  (extractor_recovers_enclosed ['p'] [] ['q'] (by decide) (by decide)).1

set_option maxRecDepth 10000 in
/-- Counterexample for C2 as stated: the text consists of a well-formed JSON
object followed by trailing commentary that contains a closing curly bracket;
the extractor slices up to that later bracket, the slice is not the object,
and parsing it fails, so nothing is recovered. -/
theorem extractor_claim_counterexample :
    (jsonLoads "\x7b\"breakdown\":[]\x7d").isSome = true ∧
    firstBraceSlice ("\x7b\"breakdown\":[]\x7d" ++ " trailing \x7d") ≠
      some "\x7b\"breakdown\":[]\x7d" ∧
    resultExtractor ("\x7b\"breakdown\":[]\x7d" ++ " trailing \x7d") =
      .parseError ("\x7b\"breakdown\":[]\x7d" ++ " trailing \x7d") := by
  exact ⟨rfl, by decide, rfl⟩

set_option maxRecDepth 40000 in
/-- Claim C3: a macro field that is missing or not coercible to an integer is
set to 0 while the item still contributes a row and its other fields to the
totals; and on the Apple scenario text the extractor produces exactly one row
for "Apple" with totals calories 95, protein 0, carbs 25, fat 0. -/
theorem breakdown_field_default_and_scenario :
    (∀ fs key, (objGet fs key = none ∨ ∃ v, objGet fs key = some v ∧ pyInt v = none) →
      coerceField fs key = 0) ∧
    (∀ fs rest, processItems (JVal.jobj fs :: rest) =
      (processItems rest).map (fun p => (itemRow fs :: p.1, addTotals (itemTotals fs) p.2))) ∧
    resultExtractor ("Here you go:\n\x7b\"breakdown\":[\x7b\"item\":\"Apple\",\"calories\":95,\"protein_grams\":\"a lot\",\"carbs_grams\":25,\"fat_grams\":0\x7d]\x7d\nEnjoy!") =
      .ok [⟨JVal.jstr "Apple", "95 kcal", "0g", "25g", "0g"⟩] ⟨95, 0, 25, 0⟩ false := by
  refine ⟨?_, ?_, rfl⟩
  · intro fs key h
    rcases h with h | ⟨v, hv, hpv⟩
    · simp [coerceField, h]
    · simp [coerceField, hv, hpv]
  · intro fs rest
    cases hp : processItems rest with
    | none => simp [processItems, hp]
    | some p => cases p with | mk rows t => simp [processItems, hp]

/-- Witness for C3: the non-numeric field value "a lot" is defaulted to 0. -/
theorem breakdown_field_default_and_scenario_witness :
    coerceField [("protein_grams", JVal.jstr "a lot")] "protein_grams" = 0 :=
  breakdown_field_default_and_scenario.1 [("protein_grams", JVal.jstr "a lot")]
    "protein_grams" (Or.inr ⟨JVal.jstr "a lot", rfl, rfl⟩)

/-- Claim C4 (amended): every derived macro field value is an integer that is
either the `int(...)` coercion of the supplied field value — which the code
never clamps, so it may be negative — or 0 when the field is missing or not
coercible. -/
theorem macro_field_value_amended (fs : List (String × JVal)) (key : String) :
    (∃ v, objGet fs key = some v ∧ pyInt v = some (coerceField fs key)) ∨
    coerceField fs key = 0 := by
  cases h : objGet fs key with
  | none => exact Or.inr (by simp [coerceField, h])
  | some v =>
    cases hp : pyInt v with
    | none => exact Or.inr (by simp [coerceField, h, hp])
    | some n => exact Or.inl ⟨v, rfl, by simp [coerceField, h, hp]⟩

set_option maxRecDepth 10000 in
/-- Counterexample for C4 as stated: a breakdown item carrying `calories: -5`
yields a derived calories value of −5, which is included as such in the row
and the totals, violating the claimed lower bound of 0. -/
theorem macro_nonneg_counterexample :
    resultExtractor "\x7b\"breakdown\":[\x7b\"calories\":-5\x7d]\x7d" =
      .ok [⟨JVal.jstr "N/A", "-5 kcal", "0g", "0g", "0g"⟩] ⟨-5, 0, 0, 0⟩ false ∧
    ((-5 : Int) < 0) :=
  ⟨rfl, by decide⟩

/-- Claim C5: the search adapter is total over its oracle: a successful
search yields the JSON-encoded array of url/content records, and any
underlying failure yields the plain error string — never a raised
exception. -/
theorem perform_web_search_never_raises
    (search : String → Except String (List (String × String))) (query : String) :
    (∃ rs, search query = .ok rs ∧
      perform_web_search search query = jsonDumpsSearchResults rs) ∨
    (∃ e, search query = .error e ∧
      perform_web_search search query = "Error performing search: " ++ e) := by
  cases h : search query with
  | ok rs => exact Or.inl ⟨rs, rfl, by simp [perform_web_search, h]⟩
  | error e => exact Or.inr ⟨e, rfl, by simp [perform_web_search, h]⟩

/-- Claim C6: a model turn whose first fragment is a ToolCall naming an
unregistered tool makes the loop exit at once with the silent-stop outcome,
zero tool invocations, and no appended messages — no adapter runs and no
synthetic ToolResult is surfaced. -/
theorem unregistered_tool_silent_stop (adapter : String → String)
    (turns : Nat → ModelTurn) (fuel i : Nat) (c : ToolCall)
    (hc : firstToolCall (turns i) = some c) (hm : c.name ∉ registryNames) :
    runToolCallLoop adapter turns (fuel + 1) i = some ⟨.silentStop, 0, []⟩ := by
  rw [runToolCallLoop_succ, hc]
  simp [if_neg hm]

/-- Witness for C6: a first turn calling the unknown tool "bogus" stops the
loop silently. -/
theorem unregistered_tool_silent_stop_witness :
    runToolCallLoop id (fun _ => ⟨[MsgPart.functionCall ⟨"bogus", []⟩]⟩) 1 0 =
      some ⟨.silentStop, 0, []⟩ :=
  unregistered_tool_silent_stop id (fun _ => ⟨[MsgPart.functionCall ⟨"bogus", []⟩]⟩)
    0 0 ⟨"bogus", []⟩ rfl (by decide)

/-- Claim C7: when the raw text lacks an opening or a closing curly bracket,
and likewise when the sliced substring fails to parse as JSON, the Results
render takes the error branch, showing the raw text verbatim and producing no
totals. -/
theorem extractor_missing_bracket_parse_error (raw : String) :
    ((lbrace ∉ raw.toList ∨ rbrace ∉ raw.toList) → resultExtractor raw = .parseError raw) ∧
    (∀ s, firstBraceSlice raw = some s → jsonLoads s = none →
      resultExtractor raw = .parseError raw) := by
  constructor
  · intro h
    have hnone : firstBraceSlice raw = none := by
      rcases h with h | h
      · have h1 : pyFind raw.data lbrace = none := pyFindAux_of_not_mem _ _ h
        cases h2 : pyRfind raw.data rbrace <;> simp [firstBraceSlice, h1, h2]
      · have h1 : pyRfind raw.data rbrace = none := by
          unfold pyRfind
          rw [pyFindAux_of_not_mem _ _ (by simpa using h)]
          rfl
        cases h2 : pyFind raw.data lbrace <;> simp [firstBraceSlice, h1, h2]
    unfold resultExtractor
    rw [hnone]
  · intro s hs hl
    unfold resultExtractor
    rw [hs]
    dsimp only
    rw [hl]

/-- Witness for C7: a text with no curly brackets at all is shown verbatim in
the error branch. -/
theorem extractor_missing_bracket_parse_error_witness :
    resultExtractor "no json here" = .parseError "no json here" :=
  (extractor_missing_bracket_parse_error "no json here").1 (Or.inl (by decide))

/-- Claim C8: extraction is a pure function of the raw text, so invoking it
twice on the same text yields identical totals and an identical rendered
outcome. -/
theorem extractor_deterministic (raw : String) :
    extractTotals raw = extractTotals raw ∧ resultExtractor raw = resultExtractor raw :=
  ⟨rfl, rfl⟩

/-- Claim C9: after the stage sequence Upload→Analyzing→Conversation→Results,
the explicit reset deletes every session key unconditionally, and re-running
the initialisation restores exactly the state of a fresh start — no residual
image bytes or message history. -/
theorem reset_restores_fresh_session (bytes : List Nat) (h1 h2 : List ChatMsg)
    (finalText : String) :
    resetSession (finalizeStep (convStep (analyzeStep (uploadStep
        (initSession emptySessionState) bytes) h1) h2) finalText) = emptySessionState ∧
    initSession (resetSession (finalizeStep (convStep (analyzeStep (uploadStep
        (initSession emptySessionState) bytes) h1) h2) finalText)) =
      initSession emptySessionState :=
  ⟨rfl, rfl⟩

/-- Claim C10: a macro field whose value is a string holding a valid integer
literal is coerced to that integer by `int(...)` rather than defaulted to 0,
and that integer is what flows into the row and totals. -/
theorem string_macro_field_coerced (fs : List (String × JVal)) (key s : String) (n : Int)
    (hv : objGet fs key = some (JVal.jstr s)) (hn : pyIntOfString s = some n) :
    coerceField fs key = n := by
  simp [coerceField, hv, pyInt, hn]

/-- Witness for C10: the string "25" is coerced to the integer 25. -/
theorem string_macro_field_coerced_witness :
    coerceField [("carbs_grams", JVal.jstr "25")] "carbs_grams" = 25 :=
  string_macro_field_coerced [("carbs_grams", JVal.jstr "25")] "carbs_grams" "25" 25
    rfl rfl

end CalApp
